import Mathlib

/-!
Verification development for `generate_icons.py`: a script that renders
diamond-shaped tray icons (optionally with a green status dot) onto square
RGBA canvases and writes four fixed files.

The drawing layer (PIL) is modelled shallowly: a canvas is a pixel function
together with its dimensions; `draw.polygon` is the standard convex
point-in-polygon fill (edges included, vertices listed clockwise in screen
coordinates), and `draw.ellipse` fills the circle inscribed in the given
inclusive bounding box.  Colors are RGBA quadruples; drawing replaces pixels
(no alpha blending), matching `ImageDraw` on an RGBA image.
-/

set_option autoImplicit false

namespace GenerateIcons

/-- An RGBA color: red, green, blue, alpha, each in [0,255]. -/
abbrev Color := Nat × Nat × Nat × Nat

/-- The fully transparent background `(0, 0, 0, 0)`. -/
def transparentColor : Color := (0, 0, 0, 0)

/-- Opaque white `(255, 255, 255, 255)`, the diamond fill. -/
def whiteColor : Color := (255, 255, 255, 255)

/-- Opaque green `(0, 255, 0, 255)`, the status-dot fill. -/
def greenColor : Color := (0, 255, 0, 255)

/-- A square raster canvas: dimensions plus a total pixel function.
Only coordinates in `[0, width) × [0, height)` are meaningful. -/
structure Canvas where
  width : Nat
  height : Nat
  pix : Int → Int → Color

/-- Cross product of the edge `p → q` with the vector `p → r`; its sign tells
on which side of the directed edge the point `r` lies. -/
def cross (p q r : Int × Int) : Int :=
  (q.1 - p.1) * (r.2 - p.2) - (q.2 - p.2) * (r.1 - p.1)

/-- The directed edge list of a closed polygon: consecutive vertex pairs,
wrapping from the last vertex back to the first. -/
def polyEdges : List (Int × Int) → List ((Int × Int) × (Int × Int))
  | [] => []
  | v :: vs => List.zip (v :: vs) (vs ++ [v])

/-- Point-in-polygon test for a convex polygon whose vertices are listed
clockwise in screen coordinates (y grows downward): the point lies on the
non-negative side of every directed edge.  Edges and vertices are included,
modelling `draw.polygon`'s filled region. -/
def polygonContains (vs : List (Int × Int)) (r : Int × Int) : Bool :=
  (polyEdges vs).all fun e => decide (0 ≤ cross e.1 e.2 r)

/-- `margin = size // 4` from the script (Python floor division on a
non-negative int is `Nat` division). -/
def margin (size : Nat) : Nat := size / 4

/-- The four diamond vertices from the script: top, right, bottom, left. -/
def points (size : Nat) : List (Int × Int) :=
  [(((size / 2 : Nat) : Int), ((margin size : Nat) : Int)),
   (((size - margin size : Nat) : Int), ((size / 2 : Nat) : Int)),
   (((size / 2 : Nat) : Int), ((size - margin size : Nat) : Int)),
   (((margin size : Nat) : Int), ((size / 2 : Nat) : Int))]

/-- `dot_margin = max(2, size // 10)` from the script. -/
def dot_margin (size : Nat) : Nat := max 2 (size / 10)

/-- `dot_size = max(3, size // 6)` from the script. -/
def dot_size (size : Nat) : Nat := max 3 (size / 6)

/-- Left/top coordinate of the dot's bounding box,
`size - dot_margin - dot_size` (computed in `Int`, as Python would). -/
def dotLo (size : Nat) : Int :=
  (size : Int) - (dot_margin size : Int) - (dot_size size : Int)

/-- Right/bottom coordinate of the dot's bounding box, `size - dot_margin`. -/
def dotHi (size : Nat) : Int :=
  (size : Int) - (dot_margin size : Int)

/-- Membership in the filled circle inscribed in the inclusive bounding box
`[lo, hi] × [lo, hi]`: center `((lo+hi)/2, (lo+hi)/2)`, diameter `hi - lo`,
written over doubled coordinates to stay in integers.  Models
`draw.ellipse` on a square box. -/
def circleInBox (lo hi x y : Int) : Bool :=
  decide ((2 * x - lo - hi) ^ 2 + (2 * y - lo - hi) ^ 2 ≤ (hi - lo) ^ 2)

/-- Membership in the status dot drawn by the script: the circle inscribed in
the bounding box `[size - dot_margin - dot_size, size - dot_margin]²`. -/
def inDot (size : Nat) (x y : Int) : Bool :=
  circleInBox (dotLo size) (dotHi size) x y

/-- `create_diamond(size, has_dot)` from the script: a `size × size` canvas,
initially transparent, with the white diamond polygon filled over it and,
when `has_dot` is set, the green dot painted last (so it wins where it
overlaps anything).  (In the script `has_dot` defaults to `False`; here it is
always passed explicitly.) -/
def create_diamond (size : Nat) (has_dot : Bool) : Canvas where
  width := size
  height := size
  pix := fun x y =>
    if has_dot && inDot size x y then greenColor
    else if polygonContains (points size) (x, y) then whiteColor
    else transparentColor

/-- The four `create_diamond(...).save(...)` calls at the bottom of the
script, in program order, modelled as (filename, canvas) pairs. -/
def main_outputs : List (String × Canvas) :=
  [("tray_iconTemplate.png", create_diamond 22 false),
   ("tray_iconTemplate@2x.png", create_diamond 44 false),
   ("tray_icon_activeTemplate.png", create_diamond 22 true),
   ("tray_icon_activeTemplate@2x.png", create_diamond 44 true)]

/-- The single confirmation line the script prints after saving the files. -/
def main_message : String := "Icons generated successfully."

/-! ## Helper lemmas -/

/-- Pixel-level unfolding of `create_diamond`. -/
lemma pix_eq (size : Nat) (b : Bool) (x y : Int) :
    (create_diamond size b).pix x y =
      if b && inDot size x y then greenColor
      else if polygonContains (points size) (x, y) then whiteColor
      else transparentColor := rfl

/-- Membership in a quadrilateral, spelled out edge by edge. -/
lemma polygonContains_quad_iff (a b c d r : Int × Int) :
    polygonContains [a, b, c, d] r = true ↔
      0 ≤ cross a b r ∧ 0 ≤ cross b c r ∧ 0 ≤ cross c d r ∧ 0 ≤ cross d a r := by
  simp [polygonContains, polyEdges]

/-- Every point of the inscribed circle lies inside the bounding box. -/
lemma circleInBox_bounds {lo hi x y : Int} (hlh : lo ≤ hi)
    (h : circleInBox lo hi x y = true) :
    lo ≤ x ∧ x ≤ hi ∧ lo ≤ y ∧ y ≤ hi := by
  have hle : (2 * x - lo - hi) ^ 2 + (2 * y - lo - hi) ^ 2 ≤ (hi - lo) ^ 2 := by
    simpa [circleInBox] using h
  have hd : (0 : Int) ≤ hi - lo := by omega
  have hx : (2 * x - lo - hi) ^ 2 ≤ (hi - lo) ^ 2 := by nlinarith [sq_nonneg (2 * y - lo - hi)]
  have hy : (2 * y - lo - hi) ^ 2 ≤ (hi - lo) ^ 2 := by nlinarith [sq_nonneg (2 * x - lo - hi)]
  have hx' := abs_le_of_sq_le_sq' hx hd
  have hy' := abs_le_of_sq_le_sq' hy hd
  omega

/-- The dot's bounding box is never inverted: its side is `dot_size ≥ 3`. -/
lemma dotLo_le_dotHi (size : Nat) : dotLo size ≤ dotHi size := by
  have h : 3 ≤ dot_size size := le_max_left 3 _
  simp only [dotLo, dotHi]
  omega

/-- Pixel-level unfolding of `create_diamond` without the dot. -/
lemma pix_no_dot (size : Nat) (x y : Int) :
    (create_diamond size false).pix x y =
      if polygonContains (points size) (x, y) then whiteColor
      else transparentColor := by
  rw [pix_eq]
  simp

/-- The diamond-shaped quadrilateral `(c,m), (v,c), (c,v), (m,c)` contains
its nominal center `(c, c)`. -/
lemma diamond_contains_center {m c v : Int} (hmc : m ≤ c) (hcv : c ≤ v) :
    polygonContains [(c, m), (v, c), (c, v), (m, c)] (c, c) = true := by
  rw [polygonContains_quad_iff]
  refine ⟨?_, ?_, ?_, ?_⟩ <;> simp only [cross] <;>
    nlinarith [mul_nonneg (sub_nonneg.2 hcv) (sub_nonneg.2 hmc),
      sq_nonneg (v - c), sq_nonneg (c - m)]

/-- The diamond misses the top-left corner `(0, 0)`. -/
lemma diamond_misses_tl {m c v : Int} (hm : 1 ≤ m) (hmc : m + 1 ≤ c) :
    polygonContains [(c, m), (v, c), (c, v), (m, c)] (0, 0) ≠ true := by
  rw [Ne, polygonContains_quad_iff]
  rintro ⟨-, -, -, h4⟩
  simp only [cross] at h4
  nlinarith [mul_pos (show (0 : Int) < c - m by omega) (show (0 : Int) < c + m by omega)]

/-- The diamond misses the top-right corner `(s − 1, 0)`. -/
lemma diamond_misses_tr {m c v s : Int} (hm : 1 ≤ m) (hmc : m + 1 ≤ c)
    (hcv : c + 1 ≤ v) (hcs : c + 1 ≤ s) :
    polygonContains [(c, m), (v, c), (c, v), (m, c)] (s - 1, 0) ≠ true := by
  rw [Ne, polygonContains_quad_iff]
  rintro ⟨h1, -, -, -⟩
  simp only [cross] at h1
  nlinarith [mul_pos (show (0 : Int) < v - c by omega) (show (0 : Int) < m by omega),
    mul_nonneg (show (0 : Int) ≤ c - m by omega) (show (0 : Int) ≤ s - 1 - c by omega)]

/-- The diamond misses the bottom-left corner `(0, s − 1)`. -/
lemma diamond_misses_bl {m c v s : Int} (hm : 1 ≤ m) (hmc : m + 1 ≤ c)
    (hcv : c + 1 ≤ v) (hvm : v + m = s) :
    polygonContains [(c, m), (v, c), (c, v), (m, c)] (0, s - 1) ≠ true := by
  rw [Ne, polygonContains_quad_iff]
  rintro ⟨-, -, h3, -⟩
  simp only [cross] at h3
  nlinarith [mul_nonneg (show (0 : Int) ≤ c - m by omega) (show (0 : Int) ≤ m - 1 by omega),
    mul_pos (show (0 : Int) < c by omega) (show (0 : Int) < v - c by omega)]

/-- The diamond misses the bottom-right corner `(s − 1, s − 1)`. -/
lemma diamond_misses_br {m c v s : Int} (hm : 1 ≤ m) (hcv : c + 1 ≤ v)
    (hcs : c + 2 ≤ s) (hvm : v + m = s) :
    polygonContains [(c, m), (v, c), (c, v), (m, c)] (s - 1, s - 1) ≠ true := by
  rw [Ne, polygonContains_quad_iff]
  rintro ⟨-, h2, -, -⟩
  simp only [cross] at h2
  nlinarith [mul_pos (show (0 : Int) < v - c by omega) (show (0 : Int) < s - 1 - c by omega),
    mul_nonneg (show (0 : Int) ≤ v - c by omega) (show (0 : Int) ≤ m - 1 by omega)]

example : points 22 = [(11, 5), (17, 11), (11, 17), (5, 11)] := by decide
example : points 44 = [(22, 11), (33, 22), (22, 33), (11, 22)] := by decide
example : dotLo 44 = 33 ∧ dotHi 44 = 40 := by decide
example : (create_diamond 22 false).pix 11 11 = whiteColor := by decide
example : (create_diamond 22 false).pix 0 0 = transparentColor := by decide
example : (create_diamond 44 true).pix 36 36 = greenColor := by decide
example : (create_diamond 44 true).pix 39 36 = greenColor := by decide
example : (create_diamond 22 true).pix 18 19 = greenColor := by decide

/-! ## Claim theorems -/

/-- C1: for every positive `size`, `create_diamond size b` is a `size × size`
canvas and, away from the (optional) status dot, its pixels are opaque white
exactly on the filled polygon with vertices top `(size/2, size/4)`,
right `(size − size/4, size/2)`, bottom `(size/2, size − size/4)`,
left `(size/4, size/2)` (integer division, `margin = size/4`), and fully
transparent otherwise. -/
theorem C1_diamond_geometry (size : Nat) (b : Bool) (h : 0 < size) :
    (create_diamond size b).width = size ∧
    (create_diamond size b).height = size ∧
    points size =
      [(((size / 2 : Nat) : Int), ((size / 4 : Nat) : Int)),
       (((size - size / 4 : Nat) : Int), ((size / 2 : Nat) : Int)),
       (((size / 2 : Nat) : Int), ((size - size / 4 : Nat) : Int)),
       (((size / 4 : Nat) : Int), ((size / 2 : Nat) : Int))] ∧
    ∀ x y : Int, ¬(b = true ∧ inDot size x y = true) →
      (create_diamond size b).pix x y =
        if polygonContains (points size) (x, y) then whiteColor
        else transparentColor := by
  refine ⟨rfl, rfl, rfl, ?_⟩
  intro x y hxy
  have hb : (b && inDot size x y) = false := by
    cases b <;> simp_all
  rw [pix_eq, hb]
  simp

/-- Witness for C1 at `size = 22`, `b = false`. -/
theorem C1_diamond_geometry_witness :
    0 < 22 ∧
    ((create_diamond 22 false).width = 22 ∧
     (create_diamond 22 false).height = 22 ∧
     points 22 =
       [(((22 / 2 : Nat) : Int), ((22 / 4 : Nat) : Int)),
        (((22 - 22 / 4 : Nat) : Int), ((22 / 2 : Nat) : Int)),
        (((22 / 2 : Nat) : Int), ((22 - 22 / 4 : Nat) : Int)),
        (((22 / 4 : Nat) : Int), ((22 / 2 : Nat) : Int))] ∧
     ∀ x y : Int, ¬(false = true ∧ inDot 22 x y = true) →
       (create_diamond 22 false).pix x y =
         if polygonContains (points 22) (x, y) then whiteColor
         else transparentColor) :=
  ⟨by decide, C1_diamond_geometry 22 false (by decide)⟩

/-- C2: with the dot enabled, the canvas equals the dot-free canvas except
that the filled circle inscribed in the bounding box with top-left corner
`(size − dot_margin − dot_size, ·)` and bottom-right corner
`(size − dot_margin, ·)`, where `dot_margin = max 2 (size/10)` and
`dot_size = max 3 (size/6)`, is painted opaque green on top (green wins
wherever they overlap). -/
theorem C2_badge_geometry (size : Nat) (h : 0 < size) :
    ∀ x y : Int,
      (create_diamond size true).pix x y =
        if circleInBox
            ((size : Int) - ((max 2 (size / 10) : Nat) : Int) - ((max 3 (size / 6) : Nat) : Int))
            ((size : Int) - ((max 2 (size / 10) : Nat) : Int)) x y
        then greenColor
        else (create_diamond size false).pix x y := by
  intro x y
  rfl

/-- Witness for C2 at `size = 22`. -/
theorem C2_badge_geometry_witness :
    0 < 22 ∧
    ∀ x y : Int,
      (create_diamond 22 true).pix x y =
        if circleInBox
            ((22 : Int) - ((max 2 (22 / 10 : Nat) : Nat) : Int) - ((max 3 (22 / 6 : Nat) : Nat) : Int))
            ((22 : Int) - ((max 2 (22 / 10 : Nat) : Nat) : Int)) x y
        then greenColor
        else (create_diamond 22 false).pix x y :=
  ⟨by decide, C2_badge_geometry 22 (by decide)⟩

/-- C3 counterexample: the claimed vertex list `(11,5), (16,11), (11,16),
(5,11)` for `size = 22` is not what the code computes — the right and bottom
vertices are at `22 − 22/4 = 17`, not 16 — and indeed the pixel `(17, 11)`,
outside the claimed diamond, is painted white. -/
theorem C3_vertices_counterexample :
    points 22 ≠ [(11, 5), (16, 11), (11, 16), (5, 11)] ∧
    (create_diamond 22 false).pix 17 11 = whiteColor := by decide

/-- C3 (amended): `render(22, False)` is a 22 × 22 canvas whose white diamond
has exactly the vertices `(11,5), (17,11), (11,17), (5,11)`, and no pixel of
the canvas is green. -/
theorem C3_render_22_plain :
    (create_diamond 22 false).width = 22 ∧
    (create_diamond 22 false).height = 22 ∧
    points 22 = [(11, 5), (17, 11), (11, 17), (5, 11)] ∧
    ∀ x y : Int, (create_diamond 22 false).pix x y ≠ greenColor := by
  refine ⟨rfl, rfl, by decide, ?_⟩
  intro x y
  rw [pix_eq]
  simp only [Bool.false_and]
  split
  · simp_all
  · split <;> decide

/-- Witness for the amended C3 at pixel `(11, 11)` (the diamond center,
which is white, not green). -/
theorem C3_render_22_plain_witness :
    (create_diamond 22 false).pix 11 11 ≠ greenColor :=
  C3_render_22_plain.2.2.2 11 11

/-- C8: the script saves exactly four canvases, in program order, under the
four fixed names, with dimensions 22, 44, 22, 44, built by the four
`create_diamond` calls, and then prints a single confirmation line. -/
theorem C8_script_outputs :
    main_outputs.map Prod.fst =
      ["tray_iconTemplate.png", "tray_iconTemplate@2x.png",
       "tray_icon_activeTemplate.png", "tray_icon_activeTemplate@2x.png"] ∧
    main_outputs.map (fun p => p.2.width) = [22, 44, 22, 44] ∧
    main_outputs.map (fun p => p.2.height) = [22, 44, 22, 44] ∧
    main_outputs.map Prod.snd =
      [create_diamond 22 false, create_diamond 44 false,
       create_diamond 22 true, create_diamond 44 true] ∧
    main_message = "Icons generated successfully." :=
  ⟨rfl, rfl, rfl, rfl, rfl⟩

/-- C9: `create_diamond` is total — for every positive `size` and every flag
it returns a `size × size` canvas, with no failure case; in particular this
covers `size < 4` (degenerate diamond) and the small sizes where the dot's
bounding box pokes outside the canvas (the pixel function is total, so
off-canvas drawing is simply invisible). -/
theorem C9_create_diamond_total (size : Nat) (has_dot : Bool) (h : 0 < size) :
    (create_diamond size has_dot).width = size ∧
    (create_diamond size has_dot).height = size :=
  ⟨rfl, rfl⟩

/-- Witness for C9 at `size = 3`, `has_dot = true`: a size below 4 whose dot
box starts at negative coordinates (`dotLo 3 = -4`). -/
theorem C9_create_diamond_total_witness :
    0 < 3 ∧
    ((create_diamond 3 true).width = 3 ∧ (create_diamond 3 true).height = 3) :=
  ⟨by decide, C9_create_diamond_total 3 true (by decide)⟩

/-- C10: every pixel is exactly one of transparent `(0,0,0,0)`, opaque white
`(255,255,255,255)`, or opaque green `(0,255,0,255)`, and green occurs only
when `has_dot` is set; no blended or partially transparent color appears. -/
theorem C10_pixel_colors (size : Nat) (has_dot : Bool) (x y : Int) :
    ((create_diamond size has_dot).pix x y = transparentColor ∨
     (create_diamond size has_dot).pix x y = whiteColor ∨
     (create_diamond size has_dot).pix x y = greenColor) ∧
    ((create_diamond size has_dot).pix x y = greenColor → has_dot = true) := by
  rw [pix_eq]
  constructor
  · split
    · exact Or.inr (Or.inr rfl)
    · split
      · exact Or.inr (Or.inl rfl)
      · exact Or.inl rfl
  · intro hg
    cases has_dot
    · simp only [Bool.false_and] at hg
      revert hg
      split
      · simp_all
      · split <;> decide
    · rfl

/-- C4 counterexample: at `size = 44` the claimed badge bounding box
`(30,30)-(37,37)` is wrong — the code yields `(33,33)-(40,40)` — and indeed
the pixel `(39, 36)` is green although it lies strictly outside the claimed
box. -/
theorem C4_bbox_counterexample :
    (create_diamond 44 true).pix 39 36 = greenColor ∧ ¬((39 : Int) ≤ 37) ∧
    (dotLo 44, dotHi 44) ≠ ((30 : Int), (37 : Int)) := by decide

/-- C4 (amended): `render(44, True)` has white diamond vertices
`(22,11), (33,22), (22,33), (11,22)`; its green badge is the circle inscribed
in the bounding box with top-left corner `(33, 33)` and bottom-right corner
`(40, 40)` (a pixel is green exactly when it lies in that circle); and the
badge sits in the bottom-right corner region disjoint from the diamond — it
does not overlap it. -/
theorem C4_render_44_active :
    points 44 = [(22, 11), (33, 22), (22, 33), (11, 22)] ∧
    dotLo 44 = 33 ∧ dotHi 44 = 40 ∧
    (∀ x y : Int, ((create_diamond 44 true).pix x y = greenColor ↔
      circleInBox 33 40 x y = true)) ∧
    ∀ x y : Int, (inDot 44 x y && polygonContains (points 44) (x, y)) = false := by
  have hdisj : ∀ x y : Int, (inDot 44 x y && polygonContains (points 44) (x, y)) = false := by
    intro x y
    cases hdot : inDot 44 x y
    · simp
    · have hb := circleInBox_bounds (dotLo_le_dotHi 44) hdot
      rw [show dotLo 44 = 33 by decide, show dotHi 44 = 40 by decide] at hb
      have hpc : polygonContains (points 44) (x, y) = false := by
        rw [show points 44 = [((22 : Int), (11 : Int)), (33, 22), (22, 33), (11, 22)] by decide]
        cases hp : polygonContains [((22 : Int), (11 : Int)), (33, 22), (22, 33), (11, 22)] (x, y)
        · rfl
        · exfalso
          obtain ⟨-, h2, -, -⟩ := (polygonContains_quad_iff _ _ _ _ _).mp hp
          simp only [cross] at h2
          omega
      simp [hpc]
  refine ⟨by decide, by decide, by decide, ?_, hdisj⟩
  intro x y
  have hin : inDot 44 x y = circleInBox 33 40 x y := by
    simp only [inDot]
    rw [show dotLo 44 = 33 by decide, show dotHi 44 = 40 by decide]
  rw [pix_eq, Bool.true_and, hin]
  cases hc : circleInBox 33 40 x y
  · simp only [if_neg (by simp : ¬(false = true))]
    constructor
    · intro hg
      exfalso
      revert hg
      split <;> decide
    · intro hfalse
      exact absurd hfalse (by decide)
  · simp

/-- Witness for the amended C4 at pixels `(36, 36)` (inside the badge) and
`(22, 22)` (the diamond center, outside the badge). -/
theorem C4_render_44_active_witness :
    ((create_diamond 44 true).pix 36 36 = greenColor ↔ circleInBox 33 40 36 36 = true) ∧
    (inDot 44 22 22 && polygonContains (points 44) ((22 : Int), (22 : Int))) = false :=
  ⟨C4_render_44_active.2.2.2.1 36 36, C4_render_44_active.2.2.2.2 22 22⟩

/-- C5: for every `size ≥ 4`, the dot-free canvas has an opaque-white center
pixel `(size/2, size/2)` and fully transparent pixels at all four corners
`(0,0)`, `(size−1,0)`, `(0,size−1)`, `(size−1,size−1)`. -/
theorem C5_center_white_corners_clear (size : Nat) (h : 4 ≤ size) :
    (create_diamond size false).pix ((size / 2 : Nat) : Int) ((size / 2 : Nat) : Int)
        = whiteColor ∧
    (create_diamond size false).pix 0 0 = transparentColor ∧
    (create_diamond size false).pix ((size : Int) - 1) 0 = transparentColor ∧
    (create_diamond size false).pix 0 ((size : Int) - 1) = transparentColor ∧
    (create_diamond size false).pix ((size : Int) - 1) ((size : Int) - 1)
        = transparentColor := by
  have hp : points size =
      [(((size / 2 : Nat) : Int), ((size / 4 : Nat) : Int)),
       (((size - size / 4 : Nat) : Int), ((size / 2 : Nat) : Int)),
       (((size / 2 : Nat) : Int), ((size - size / 4 : Nat) : Int)),
       (((size / 4 : Nat) : Int), ((size / 2 : Nat) : Int))] := rfl
  have hm1 : (1 : Int) ≤ ((size / 4 : Nat) : Int) := by omega
  have hmc : ((size / 4 : Nat) : Int) + 1 ≤ ((size / 2 : Nat) : Int) := by omega
  have hcv : ((size / 2 : Nat) : Int) + 1 ≤ ((size - size / 4 : Nat) : Int) := by omega
  have hvm : ((size - size / 4 : Nat) : Int) + ((size / 4 : Nat) : Int) = (size : Int) := by
    omega
  have hcs : ((size / 2 : Nat) : Int) + 2 ≤ (size : Int) := by omega
  refine ⟨?_, ?_, ?_, ?_, ?_⟩
  · rw [pix_no_dot, hp, if_pos (diamond_contains_center (by omega) (by omega))]
  · rw [pix_no_dot, hp, if_neg (diamond_misses_tl hm1 hmc)]
  · rw [pix_no_dot, hp, if_neg (diamond_misses_tr hm1 hmc hcv (by omega))]
  · rw [pix_no_dot, hp, if_neg (diamond_misses_bl hm1 hmc hcv hvm)]
  · rw [pix_no_dot, hp, if_neg (diamond_misses_br hm1 hcv hcs hvm)]

/-- Witness for C5 at `size = 22`. -/
theorem C5_center_white_corners_clear_witness :
    4 ≤ 22 ∧
    ((create_diamond 22 false).pix ((22 / 2 : Nat) : Int) ((22 / 2 : Nat) : Int)
        = whiteColor ∧
     (create_diamond 22 false).pix 0 0 = transparentColor ∧
     (create_diamond 22 false).pix ((22 : Int) - 1) 0 = transparentColor ∧
     (create_diamond 22 false).pix 0 ((22 : Int) - 1) = transparentColor ∧
     (create_diamond 22 false).pix ((22 : Int) - 1) ((22 : Int) - 1)
        = transparentColor) :=
  ⟨by decide, C5_center_white_corners_clear 22 (by decide)⟩

/-- C6: the canvases with and without the dot agree on every pixel outside the
dot's bounding box `[dotLo, dotHi] × [dotLo, dotHi]`. -/
theorem C6_agree_outside_badge_box (size : Nat) (h : 0 < size) :
    ∀ x y : Int,
      ¬(dotLo size ≤ x ∧ x ≤ dotHi size ∧ dotLo size ≤ y ∧ y ≤ dotHi size) →
      (create_diamond size true).pix x y = (create_diamond size false).pix x y := by
  intro x y hout
  cases hdot : inDot size x y
  · rw [pix_eq, pix_eq, hdot]
    simp
  · exact absurd (circleInBox_bounds (dotLo_le_dotHi size) hdot) hout

/-- Witness for C6 at `size = 22`, pixel `(0, 0)` (the dot box is
`[17, 20]²`). -/
theorem C6_agree_outside_badge_box_witness :
    0 < 22 ∧
    ¬(dotLo 22 ≤ (0 : Int) ∧ (0 : Int) ≤ dotHi 22 ∧
      dotLo 22 ≤ (0 : Int) ∧ (0 : Int) ≤ dotHi 22) ∧
    (create_diamond 22 true).pix 0 0 = (create_diamond 22 false).pix 0 0 :=
  ⟨by decide, by decide, C6_agree_outside_badge_box 22 (by decide) 0 0 (by decide)⟩

/-- C7: for every `size ≥ 10` the dot's bounding box
`[size − dot_margin − dot_size, size − dot_margin]²` lies inside
`[0, size) × [0, size)`, hence every point of the dot is on the canvas. -/
theorem C7_badge_inside_canvas (size : Nat) (h : 10 ≤ size) :
    0 ≤ dotLo size ∧ dotHi size < (size : Int) ∧
    ∀ x y : Int, inDot size x y = true →
      0 ≤ x ∧ x < (size : Int) ∧ 0 ≤ y ∧ y < (size : Int) := by
  have hdm2 : 2 ≤ dot_margin size := le_max_left _ _
  have hsum : dot_margin size + dot_size size ≤ size := by
    simp only [dot_margin, dot_size]
    omega
  refine ⟨by simp only [dotLo]; omega, by simp only [dotHi]; omega, ?_⟩
  intro x y hx
  have hb := circleInBox_bounds (dotLo_le_dotHi size) hx
  simp only [dotLo, dotHi] at hb
  omega

/-- Witness for C7 at `size = 10`, with the dot pixel `(6, 6)` inside the
canvas. -/
theorem C7_badge_inside_canvas_witness :
    10 ≤ 10 ∧ 0 ≤ dotLo 10 ∧ dotHi 10 < (10 : Int) ∧ inDot 10 6 6 = true ∧
    (0 ≤ (6 : Int) ∧ (6 : Int) < (10 : Int) ∧ 0 ≤ (6 : Int) ∧ (6 : Int) < (10 : Int)) :=
  ⟨by decide, (C7_badge_inside_canvas 10 (by decide)).1,
   (C7_badge_inside_canvas 10 (by decide)).2.1, by decide,
   (C7_badge_inside_canvas 10 (by decide)).2.2 6 6 (by decide)⟩

/-- Witness for C10 at `size = 22`, `has_dot = true`, pixel `(18, 19)`. -/
theorem C10_pixel_colors_witness :
    (((create_diamond 22 true).pix 18 19 = transparentColor ∨
      (create_diamond 22 true).pix 18 19 = whiteColor ∨
      (create_diamond 22 true).pix 18 19 = greenColor) ∧
     ((create_diamond 22 true).pix 18 19 = greenColor → true = true)) :=
  C10_pixel_colors 22 true 18 19

end GenerateIcons
